import Mathlib

/-
Shallow embedding of the `openapi-mcp-gen` repository's own logic:
- `src/openapi_mcp_gen/auth.py`: `AuthHandler.get_auth` and the four request
  signing policies (httpx `auth_flow` / `async_auth_flow` generators).
- `src/openapi_mcp_gen/server.py`: `OpenAPISpecHandler` (URL classification,
  YAML-then-JSON parsing fallback, path-or-URL loading).

External collaborators (httpx header/query containers, `urllib.parse.urlparse`,
the yaml/json parsers, the filesystem and the network) are modelled at their
interface: parsers, file-system and network effects are function parameters,
while the header/query mutation semantics of httpx (case-insensitive header
replacement, `dict(QueryParams)` collapsing repeated keys to their first
value) are embedded concretely because the auth code's observable behaviour
depends on them.
-/

set_option autoImplicit false

namespace McpGen

/-! ## urllib.parse.urlparse — scheme and netloc components -/

/-- Characters allowed in a URL scheme (`scheme_chars` in CPython's
`urllib.parse`): ASCII letters, digits, `+`, `-`, `.`. -/
def isSchemeChar (c : Char) : Bool :=
  c.isAlpha || c.isDigit || c == '+' || c == '-' || c == '.'

/-- Split off the scheme as CPython `urlsplit` does: if the string contains a
`:` whose prefix is non-empty, starts with a letter and consists of scheme
characters, the scheme is that prefix lowercased and the remainder follows the
colon; otherwise the scheme is empty and the whole string remains. -/
def splitScheme (s : String) : String × String :=
  let cs := s.toList
  match cs.findIdx? (fun c => c == ':') with
  | some i =>
    match cs.take i with
    | [] => ("", s)
    | c :: _ =>
      if c.isAlpha && (cs.take i).all isSchemeChar then
        (String.mk ((cs.take i).map Char.toLower), String.mk (cs.drop (i + 1)))
      else ("", s)
  | none => ("", s)

/-- Extract the netloc from the post-scheme remainder as CPython does: if it
starts with `//`, the netloc runs until the first `/`, `?` or `#`. -/
def splitNetloc (rest : String) : String :=
  match rest.toList with
  | '/' :: '/' :: r => String.mk (r.takeWhile (fun c => c != '/' && c != '?' && c != '#'))
  | _ => ""

/-- `urlparse(s).scheme`. -/
def urlScheme (s : String) : String := (splitScheme s).1

/-- `urlparse(s).netloc`. -/
def urlNetloc (s : String) : String := splitNetloc (splitScheme s).2

/-- `OpenAPISpecHandler.is_url` (server.py): parses the path and checks
`parsed.scheme in ("http", "https")`. -/
def is_url (path : String) : Bool :=
  urlScheme path == "http" || urlScheme path == "https"

/-- Modelled from the spec's words (§4.3), for comparison against `is_url`:
classifies the input as a URL if it parses with scheme in {http, https} AND a
non-empty host component. -/
def is_url_specWords (path : String) : Bool :=
  (urlScheme path == "http" || urlScheme path == "https") && urlNetloc path != ""

/-! ## httpx header and query-parameter container semantics -/

/-- Lowercasing of header keys as httpx performs it (Python `str.lower` on
ASCII header names), written structurally over the character list so that
concrete instances evaluate. -/
def lowerStr (s : String) : String := String.mk (s.toList.map Char.toLower)

/-- `httpx.Headers.__setitem__`: case-insensitive; replaces the first entry
with a matching key (storing the new raw key) and removes any further
duplicates of that key; appends if no entry matches. -/
def headerSet : List (String × String) → String → String → List (String × String)
  | [], k, v => [(k, v)]
  | p :: rest, k, v =>
    if lowerStr p.1 == lowerStr k then
      (k, v) :: rest.filter (fun q => lowerStr q.1 != lowerStr k)
    else
      p :: headerSet rest k v

/-- `httpx.Headers.__getitem__`: case-insensitive lookup of the first entry
with a matching key. -/
def headerGet (hs : List (String × String)) (n : String) : Option String :=
  (hs.find? (fun p => lowerStr p.1 == lowerStr n)).map (·.2)

/-- `dict(request.url.params)`: httpx `QueryParams` is a `Mapping` whose keys
appear once each in first-occurrence order and whose `__getitem__` returns the
first value for a key, so the resulting `dict` keeps the first value of every
key. -/
def pyDict : List (String × String) → List (String × String)
  | [] => []
  | p :: rest => p :: pyDict (rest.filter (fun q => q.1 != p.1))
termination_by l => l.length
decreasing_by
  simp_wf
  exact Nat.lt_succ_of_le (List.length_filter_le _ _)

/-- Python `dict` assignment `d[k] = v`: updates the value in place if the key
is present, otherwise appends the new pair. -/
def dictSet (d : List (String × String)) (k v : String) : List (String × String) :=
  if d.any (fun p => p.1 == k) then
    d.map (fun p => if p.1 == k then (k, v) else p)
  else
    d ++ [(k, v)]

/-- First-value query-parameter lookup (case-sensitive, as Python dict /
httpx `QueryParams.__getitem__`). -/
def qget (ps : List (String × String)) (n : String) : Option String :=
  (ps.find? (fun p => p.1 == n)).map (·.2)

/-! ## Requests and credentials -/

/-- An outgoing HTTP request, reduced to the components the signing policies
can observe or mutate. -/
structure Request where
  method : String
  path : String
  query : List (String × String)
  headers : List (String × String)
  body : String
deriving DecidableEq, Repr

/-- A raw credential value as passed to `AuthHandler`: either a single string
or a tuple of strings (the CLI passes tuples for basic/api_key/oauth2 and a
bare string for bearer). -/
inductive Cred where
  | pstr (s : String)
  | ptup (xs : List String)
deriving DecidableEq, Repr

/-- Python truthiness of the credential object (`not self.credentials`):
`None`, the empty string and the empty tuple are falsy. -/
def credTruthy : Option Cred → Bool
  | none => false
  | some (.pstr s) => s != ""
  | some (.ptup xs) => !xs.isEmpty

/-- Sequence view of a credential used by `len(...)` and tuple unpacking:
a string unpacks into its one-character strings, a tuple into its fields,
and `None` contributes nothing (it is rejected by the truthiness check
before `len` is reached). -/
def elems : Option Cred → List String
  | none => []
  | some (.pstr s) => s.toList.map (fun c => String.mk [c])
  | some (.ptup xs) => xs

/-- Python `str(...)` of a credential, as interpolated by the f-string
`f"Bearer {self.token}"`: a string renders as itself, a tuple as its repr. -/
def pyStrCred : Cred → String
  | .pstr s => s
  | .ptup [x] => "('" ++ x ++ "',)"
  | .ptup xs => "(" ++ String.intercalate ", " (xs.map (fun x => "'" ++ x ++ "'")) ++ ")"

/-- The signing policy produced by `AuthHandler.get_auth`, holding exactly the
fields the corresponding Python class stores. -/
inductive AuthPolicy where
  | basicAuth (username password : String)
  | bearerAuth (token : Cred)
  | apiKeyAuth (location keyName keyValue : String)
  | oauth2Auth (tokenUrl clientId clientSecret scope : String)
deriving DecidableEq, Repr

/-- `AuthHandler.get_auth` (auth.py lines 17–43). Returns the validated
policy, `none` when no (or an unrecognized) auth type is set, or the
`ValueError` message raised on a credential-shape mismatch. -/
def get_auth (auth_type : Option String) (credentials : Option Cred) :
    Except String (Option AuthPolicy) :=
  if auth_type == some "basic" then
    match elems credentials with
    | [u, p] => .ok (some (.basicAuth u p))
    | _ => .error "Basic authentication requires username and password"
  else if auth_type == some "bearer" then
    if credTruthy credentials then
      match credentials with
      | some c => .ok (some (.bearerAuth c))
      | none => .error "Bearer authentication requires a token"
    else .error "Bearer authentication requires a token"
  else if auth_type == some "api_key" then
    match elems credentials with
    | [l, n, v] => .ok (some (.apiKeyAuth l n v))
    | _ => .error "API key authentication requires location, name, and value"
  else if auth_type == some "oauth2" then
    match elems credentials with
    | [tu, ci, cs, sc] => .ok (some (.oauth2Auth tu ci cs sc))
    | _ => .error "OAuth2 authentication requires token URL, client ID, client secret, and scope"
  else .ok none

/-! ## Signing-policy request flows -/

/-- `httpx.BasicAuth.auth_flow`: sets `Authorization: Basic <base64(u:p)>`.
The base64 encoder is the external library's and is passed in abstractly. -/
def basic_auth_flow (enc : String → String) (username password : String) (r : Request) : Request :=
  { r with headers := headerSet r.headers "Authorization" ("Basic " ++ enc (username ++ ":" ++ password)) }

/-- `BearerAuth.auth_flow` (auth.py lines 52–54). -/
def bearer_auth_flow (token : Cred) (r : Request) : Request :=
  { r with headers := headerSet r.headers "Authorization" ("Bearer " ++ pyStrCred token) }

/-- `APIKeyAuth.auth_flow` (auth.py lines 67–74). -/
def api_key_auth_flow (location keyName keyValue : String) (r : Request) : Request :=
  if location == "header" then
    { r with headers := headerSet r.headers keyName keyValue }
  else if location == "query" then
    { r with query := dictSet (pyDict r.query) keyName keyValue }
  else r

/-- The mutable state of an `OAuth2Auth` instance: its cached token
(`self._token`, initialized to `None`). -/
structure OAuth2St where
  token : Option String
deriving DecidableEq, Repr

/-- Python truthiness of the cached token (`not self._token`). -/
def optTruthy : Option String → Bool
  | none => false
  | some s => s != ""

/-- Python `str(...)` of the cached token as an f-string interpolates it. -/
def pyStrOpt : Option String → String
  | none => "None"
  | some s => s

/-- `OAuth2Auth.async_auth_flow` (auth.py lines 93–97): when no truthy token
is cached, performs one token exchange (`_get_token`) whose JSON response's
`access_token` field is the `fetch` parameter, caches it, then sets
`Authorization: Bearer <self._token>`. Returns the signed request, the new
cache state, and the number of token-exchange calls performed. -/
def oauth2_async_auth_flow (fetch : Option String) (st : OAuth2St) (r : Request) :
    Request × OAuth2St × Nat :=
  if optTruthy st.token then
    ({ r with headers := headerSet r.headers "Authorization" ("Bearer " ++ pyStrOpt st.token) }, st, 0)
  else
    ({ r with headers := headerSet r.headers "Authorization" ("Bearer " ++ pyStrOpt fetch) },
     { token := fetch }, 1)

/-- `OAuth2Auth.auth_flow` (auth.py lines 99–105), the sync path: performs no
token exchange and sets `Authorization: Bearer <self._token or
'token_placeholder'>`. -/
def oauth2_sync_auth_flow (st : OAuth2St) (r : Request) : Request × OAuth2St × Nat :=
  let tok := if optTruthy st.token then pyStrOpt st.token else "token_placeholder"
  ({ r with headers := headerSet r.headers "Authorization" ("Bearer " ++ tok) }, st, 0)

/-- Dispatch of the resolved policy (or `auth=None`) over an outgoing request,
as the httpx `AsyncClient` applies it; `none` means the client sends the
request unchanged. -/
def apply_auth (enc : String → String) (fetch : Option String) :
    Option AuthPolicy → OAuth2St → Request → Request × OAuth2St × Nat
  | none, st, r => (r, st, 0)
  | some (.basicAuth u p), st, r => (basic_auth_flow enc u p r, st, 0)
  | some (.bearerAuth t), st, r => (bearer_auth_flow t r, st, 0)
  | some (.apiKeyAuth l n v), st, r => (api_key_auth_flow l n v r, st, 0)
  | some (.oauth2Auth _ _ _ _), st, r => oauth2_async_auth_flow fetch st r

/-! ## Spec acquisition (OpenAPISpecHandler) -/

/-- `OpenAPISpecHandler.load_from_content` (server.py lines 34–40): tries the
YAML parser; on a YAML parse error falls back to the JSON parser on the same
text. The two external parsers are parameters. -/
def load_from_content {α : Type} (yamlLoad jsonLoad : String → Except String α)
    (content : String) : Except String α :=
  match yamlLoad content with
  | .ok v => .ok v
  | .error _ => jsonLoad content

/-- Errors surfaced by spec acquisition. -/
inductive LoadErr where
  | invalidURL (msg : String)
  | fileNotFound (msg : String)
  | downloadFailed (msg : String)
  | parseFailed (msg : String)
deriving DecidableEq, Repr

/-- `OpenAPISpecHandler.download_from_url` (server.py lines 42–56): raises
`ValueError(f"Invalid URL: {url}")` when the scheme or netloc is empty or the
scheme is not http/https, otherwise performs the GET (the network is the
`net` parameter). -/
def download_from_url (net : String → Except String String) (url : String) :
    Except LoadErr String :=
  if urlScheme url == "" || urlNetloc url == "" then
    .error (.invalidURL ("Invalid URL: " ++ url))
  else if !(urlScheme url == "http" || urlScheme url == "https") then
    .error (.invalidURL ("Invalid URL: " ++ url))
  else
    match net url with
    | .ok body => .ok body
    | .error e => .error (.downloadFailed e)

/-- `OpenAPISpecHandler.load_from_path_or_url` (server.py lines 58–68): URL
inputs are downloaded then parsed; other inputs are treated as file paths,
failing with `FileNotFoundError(f"File not found: {path}")` when the file
does not exist, and otherwise parsed from the file's content
(`load_from_file` has the same YAML-then-JSON fallback as
`load_from_content`). -/
def load_from_path_or_url {α : Type} (net : String → Except String String)
    (fileExists : String → Bool) (readFile : String → String)
    (yamlLoad jsonLoad : String → Except String α) (s : String) : Except LoadErr α :=
  if is_url s then
    match download_from_url net s with
    | .error e => .error e
    | .ok content =>
      match load_from_content yamlLoad jsonLoad content with
      | .ok v => .ok v
      | .error e => .error (.parseFailed e)
  else if fileExists s then
    match load_from_content yamlLoad jsonLoad (readFile s) with
    | .ok v => .ok v
    | .error e => .error (.parseFailed e)
  else
    .error (.fileNotFound ("File not found: " ++ s))

/-! ## Concrete sample requests used by counterexamples and witnesses -/

/-- A minimal GET request with no headers and no query parameters. -/
def req0 : Request := { method := "GET", path := "/", query := [], headers := [], body := "" }

/-- A request whose query string repeats the key `a` (`?a=1&a=2`) and that
carries one unrelated header. -/
def reqDup : Request :=
  { method := "GET", path := "/", query := [("a", "1"), ("a", "2")],
    headers := [("X-Other", "z")], body := "" }

/-! ## Helper lemmas about find?, filter, headers and query dicts -/

theorem find?_filter_of_imp {α : Type} (l : List α) (p q : α → Bool)
    (h : ∀ x, p x = true → q x = true) : (l.filter q).find? p = l.find? p := by
  induction l with
  | nil => rfl
  | cons a l ih =>
    by_cases hpa : p a = true
    · have hqa : q a = true := h a hpa
      rw [List.filter_cons, if_pos hqa, List.find?_cons_of_pos _ hpa,
        List.find?_cons_of_pos _ hpa]
    · by_cases hqa : q a = true
      · rw [List.filter_cons, if_pos hqa, List.find?_cons_of_neg _ hpa,
          List.find?_cons_of_neg _ hpa, ih]
      · rw [List.filter_cons, if_neg hqa, List.find?_cons_of_neg _ hpa, ih]

theorem headerSet_nil (k v : String) : headerSet [] k v = [(k, v)] := rfl

theorem headerSet_cons_pos (p : String × String) (rest : List (String × String)) (k v : String)
    (h : lowerStr p.1 = lowerStr k) :
    headerSet (p :: rest) k v = (k, v) :: rest.filter (fun q => lowerStr q.1 != lowerStr k) := by
  simp [headerSet, h]

theorem headerSet_cons_neg (p : String × String) (rest : List (String × String)) (k v : String)
    (h : ¬ lowerStr p.1 = lowerStr k) :
    headerSet (p :: rest) k v = p :: headerSet rest k v := by
  simp [headerSet, h]

theorem headerGet_nil (n : String) : headerGet [] n = none := rfl

theorem headerGet_cons_pos (p : String × String) (hs : List (String × String)) (n : String)
    (h : lowerStr p.1 = lowerStr n) : headerGet (p :: hs) n = some p.2 := by
  unfold headerGet
  rw [List.find?_cons_of_pos (p := fun q => lowerStr q.1 == lowerStr n) hs (by simpa using h)]
  rfl

theorem headerGet_cons_neg (p : String × String) (hs : List (String × String)) (n : String)
    (h : ¬ lowerStr p.1 = lowerStr n) : headerGet (p :: hs) n = headerGet hs n := by
  unfold headerGet
  rw [List.find?_cons_of_neg (p := fun q => lowerStr q.1 == lowerStr n) hs (by simpa using h)]

theorem headerGet_headerSet_self (hs : List (String × String)) (k v n : String)
    (h : lowerStr n = lowerStr k) : headerGet (headerSet hs k v) n = some v := by
  induction hs with
  | nil => rw [headerSet_nil, headerGet_cons_pos _ _ _ h.symm]
  | cons p rest ih =>
    by_cases hp : lowerStr p.1 = lowerStr k
    · rw [headerSet_cons_pos _ _ _ _ hp, headerGet_cons_pos _ _ _ h.symm]
    · have hpn : ¬ lowerStr p.1 = lowerStr n := by rw [h]; exact hp
      rw [headerSet_cons_neg _ _ _ _ hp, headerGet_cons_neg _ _ _ hpn]
      exact ih

theorem headerGet_headerSet_other (hs : List (String × String)) (k v n : String)
    (h : lowerStr n ≠ lowerStr k) : headerGet (headerSet hs k v) n = headerGet hs n := by
  have hk : ¬ lowerStr k = lowerStr n := fun hc => h hc.symm
  induction hs with
  | nil => rw [headerSet_nil, headerGet_cons_neg _ _ _ hk, headerGet_nil]
  | cons p rest ih =>
    by_cases hp : lowerStr p.1 = lowerStr k
    · have hpn : ¬ lowerStr p.1 = lowerStr n := by rw [hp]; exact fun hc => h hc.symm
      rw [headerSet_cons_pos _ _ _ _ hp, headerGet_cons_neg _ _ _ hk,
        headerGet_cons_neg _ _ _ hpn]
      unfold headerGet
      rw [find?_filter_of_imp]
      intro x hx
      simp only [beq_iff_eq] at hx
      simp only [bne_iff_ne, ne_eq, hx]
      exact fun hc => h hc
    · rw [headerSet_cons_neg _ _ _ _ hp]
      by_cases hpn : lowerStr p.1 = lowerStr n
      · rw [headerGet_cons_pos _ _ _ hpn, headerGet_cons_pos _ _ _ hpn]
      · rw [headerGet_cons_neg _ _ _ hpn, headerGet_cons_neg _ _ _ hpn]
        exact ih

/-- Keys are pairwise distinct (the invariant of a Python `dict` rendered as
an ordered association list). -/
def NodupKeys (l : List (String × String)) : Prop :=
  l.Pairwise (fun a b => a.1 ≠ b.1)

theorem qget_nil (n : String) : qget [] n = none := rfl

theorem qget_cons_pos (p : String × String) (ps : List (String × String)) (n : String)
    (h : p.1 = n) : qget (p :: ps) n = some p.2 := by
  unfold qget
  rw [List.find?_cons_of_pos (p := fun q => q.1 == n) ps (by simpa using h)]
  rfl

theorem qget_cons_neg (p : String × String) (ps : List (String × String)) (n : String)
    (h : ¬ p.1 = n) : qget (p :: ps) n = qget ps n := by
  unfold qget
  rw [List.find?_cons_of_neg (p := fun q => q.1 == n) ps (by simpa using h)]

theorem pyDict_nil : pyDict [] = [] := by unfold pyDict; rfl

theorem pyDict_cons (p : String × String) (rest : List (String × String)) :
    pyDict (p :: rest) = p :: pyDict (rest.filter (fun q => q.1 != p.1)) := by
  conv_lhs => unfold pyDict

theorem qget_pyDict (ps : List (String × String)) (n : String) :
    qget (pyDict ps) n = qget ps n := by
  induction ps using pyDict.induct with
  | case1 => rw [pyDict_nil]
  | case2 p rest ih =>
    rw [pyDict_cons]
    by_cases hp : p.1 = n
    · rw [qget_cons_pos _ _ _ hp, qget_cons_pos _ _ _ hp]
    · rw [qget_cons_neg _ _ _ hp, qget_cons_neg _ _ _ hp, ih]
      unfold qget
      rw [find?_filter_of_imp]
      intro x hx
      simp only [beq_iff_eq] at hx
      simp only [bne_iff_ne, ne_eq, hx]
      exact fun hc => hp hc.symm

theorem pyDict_mem_of_mem (ps : List (String × String)) (x : String × String)
    (h : x ∈ pyDict ps) : x ∈ ps := by
  induction ps using pyDict.induct with
  | case1 => rw [pyDict_nil] at h; exact absurd h (List.not_mem_nil x)
  | case2 p rest ih =>
    rw [pyDict_cons] at h
    rcases List.mem_cons.mp h with h | h
    · exact h ▸ List.mem_cons_self p rest
    · exact List.mem_cons_of_mem p (List.mem_filter.mp (ih h)).1

theorem pyDict_nodupKeys (ps : List (String × String)) : NodupKeys (pyDict ps) := by
  induction ps using pyDict.induct with
  | case1 => rw [pyDict_nil]; exact List.Pairwise.nil
  | case2 p rest ih =>
    rw [pyDict_cons]
    refine List.pairwise_cons.mpr ⟨fun b hb => ?_, ih⟩
    have hmem := pyDict_mem_of_mem _ _ hb
    have := (List.mem_filter.mp hmem).2
    simp only [bne_iff_ne, ne_eq] at this
    exact fun hc => this hc.symm

theorem pyDict_eq_self (ps : List (String × String)) (h : NodupKeys ps) : pyDict ps = ps := by
  induction ps using pyDict.induct with
  | case1 => exact pyDict_nil
  | case2 p rest ih =>
    rcases List.pairwise_cons.mp h with ⟨hhead, htail⟩
    have hfil : rest.filter (fun q => q.1 != p.1) = rest :=
      List.filter_eq_self.mpr fun a ha => by
        simp only [bne_iff_ne, ne_eq]
        exact fun hc => hhead a ha hc.symm
    rw [hfil] at ih
    rw [pyDict_cons, hfil, ih htail]

theorem setEntry_fst (k v : String) (x : String × String) :
    ((if x.1 == k then (k, v) else x) : String × String).1 = x.1 := by
  by_cases hx : x.1 = k
  · rw [if_pos (by simpa using hx)]; exact hx.symm
  · rw [if_neg (by simpa using hx)]

theorem dictSet_nodupKeys (d : List (String × String)) (k v : String) (h : NodupKeys d) :
    NodupKeys (dictSet d k v) := by
  unfold dictSet
  by_cases hany : d.any (fun p => p.1 == k) = true
  · rw [if_pos hany]
    refine List.pairwise_map.mpr (h.imp ?_)
    intro a b hab
    rw [setEntry_fst, setEntry_fst]
    exact hab
  · rw [if_neg hany]
    refine List.pairwise_append.mpr ⟨h, ?_, ?_⟩
    · simp [NodupKeys]
    · intro a ha b hb
      rw [List.mem_singleton.mp hb]
      intro hc
      exact hany (List.any_eq_true.mpr ⟨a, ha, by simpa using hc⟩)

theorem qget_map_set_of_mem (d : List (String × String)) (k v : String)
    (hex : ∃ x ∈ d, x.1 = k) :
    qget (d.map (fun p => if p.1 == k then (k, v) else p)) k = some v := by
  induction d with
  | nil =>
    rcases hex with ⟨x, hx, _⟩
    exact absurd hx (List.not_mem_nil x)
  | cons a rest ih =>
    rw [List.map_cons]
    by_cases hak : a.1 = k
    · rw [if_pos (by simpa using hak)]
      exact qget_cons_pos _ _ _ rfl
    · rw [if_neg (by simpa using hak), qget_cons_neg _ _ _ hak]
      rcases hex with ⟨x, hx, hxk⟩
      rcases List.mem_cons.mp hx with rfl | hx2
      · exact absurd hxk hak
      · exact ih ⟨x, hx2, hxk⟩

theorem qget_map_set_other (d : List (String × String)) (k v m : String) (h : m ≠ k) :
    qget (d.map (fun p => if p.1 == k then (k, v) else p)) m = qget d m := by
  induction d with
  | nil => rfl
  | cons a rest ih =>
    rw [List.map_cons]
    by_cases hak : a.1 = k
    · rw [if_pos (by simpa using hak)]
      have h1 : ¬ (k, v).1 = m := fun hc => h (hc.symm)
      have h2 : ¬ a.1 = m := by rw [hak]; exact fun hc => h hc.symm
      rw [qget_cons_neg _ _ _ h1, qget_cons_neg _ _ _ h2, ih]
    · rw [if_neg (by simpa using hak)]
      by_cases ham : a.1 = m
      · rw [qget_cons_pos _ _ _ ham, qget_cons_pos _ _ _ ham]
      · rw [qget_cons_neg _ _ _ ham, qget_cons_neg _ _ _ ham, ih]

theorem dictSet_qget_self (d : List (String × String)) (k v : String) :
    qget (dictSet d k v) k = some v := by
  unfold dictSet
  by_cases hany : d.any (fun p => p.1 == k) = true
  · rw [if_pos hany]
    rcases List.any_eq_true.mp hany with ⟨x, hx, hxk⟩
    exact qget_map_set_of_mem d k v ⟨x, hx, by simpa using hxk⟩
  · rw [if_neg hany]
    unfold qget
    rw [List.find?_append]
    have hnone : d.find? (fun p => p.1 == k) = none := by
      rw [List.find?_eq_none]
      intro x hx hc
      exact hany (List.any_eq_true.mpr ⟨x, hx, hc⟩)
    rw [hnone, Option.none_or]
    simp [List.find?]

theorem dictSet_qget_other (d : List (String × String)) (k v m : String) (h : m ≠ k) :
    qget (dictSet d k v) m = qget d m := by
  unfold dictSet
  by_cases hany : d.any (fun p => p.1 == k) = true
  · rw [if_pos hany]
    exact qget_map_set_other d k v m h
  · rw [if_neg hany]
    unfold qget
    rw [List.find?_append]
    have hnone : List.find? (fun p => p.1 == m) [(k, v)] = none := by
      rw [List.find?_eq_none]
      intro x hx hc
      rw [List.mem_singleton.mp hx] at hc
      have hkm : k = m := by simpa using hc
      exact h hkm.symm
    rw [hnone, Option.or_none]

theorem any_key_dictSet (d : List (String × String)) (k v : String) :
    (dictSet d k v).any (fun p => p.1 == k) = true := by
  unfold dictSet
  by_cases hany : d.any (fun p => p.1 == k) = true
  · rw [if_pos hany]
    rcases List.any_eq_true.mp hany with ⟨x, hx, hxk⟩
    refine List.any_eq_true.mpr ⟨(k, v), ?_, by simp⟩
    refine List.mem_map.mpr ⟨x, hx, ?_⟩
    rw [if_pos hxk]
  · rw [if_neg hany]
    exact List.any_eq_true.mpr ⟨(k, v), by simp, by simp⟩

theorem dictSet_of_any (d : List (String × String)) (k v : String)
    (h : d.any (fun p => p.1 == k) = true) :
    dictSet d k v = d.map (fun p => if p.1 == k then (k, v) else p) := by
  unfold dictSet
  rw [if_pos h]

theorem dictSet_of_not_any (d : List (String × String)) (k v : String)
    (h : ¬ d.any (fun p => p.1 == k) = true) :
    dictSet d k v = d ++ [(k, v)] := by
  unfold dictSet
  rw [if_neg h]

theorem dictSet_idem (d : List (String × String)) (k v : String) :
    dictSet (dictSet d k v) k v = dictSet d k v := by
  rw [dictSet_of_any _ _ _ (any_key_dictSet d k v)]
  by_cases hany : d.any (fun p => p.1 == k) = true
  · rw [dictSet_of_any _ _ _ hany, List.map_map]
    refine List.map_congr_left ?_
    intro x _
    by_cases hx : x.1 = k
    · simp [Function.comp, hx]
    · simp [Function.comp, hx]
  · rw [dictSet_of_not_any _ _ _ hany, List.map_append]
    have h1 : d.map (fun p => if p.1 == k then (k, v) else p) = d := by
      have h2 : d.map (fun p => if p.1 == k then (k, v) else p) = d.map id := by
        refine List.map_congr_left ?_
        intro a ha
        have hne : ¬ (a.1 == k) = true := fun hc =>
          hany (List.any_eq_true.mpr ⟨a, ha, hc⟩)
        rw [if_neg hne]
        rfl
      rw [h2, List.map_id]
    rw [h1]
    have h3 : List.map (fun p => if p.1 == k then ((k, v) : String × String) else p) [(k, v)]
        = [(k, v)] := by simp
    rw [h3]

theorem countP_key_le_one (d : List (String × String)) (k : String) (h : NodupKeys d) :
    d.countP (fun p => p.1 == k) ≤ 1 := by
  induction d with
  | nil => simp
  | cons a rest ih =>
    rcases List.pairwise_cons.mp h with ⟨hhead, htail⟩
    by_cases hak : a.1 = k
    · rw [List.countP_cons_of_pos _ _ (by simpa using hak)]
      have h0 : rest.countP (fun p => p.1 == k) = 0 :=
        List.countP_eq_zero.mpr fun b hb hc => by
          have hbk : b.1 = k := by simpa using hc
          exact hhead b hb (hak.trans hbk.symm)
      omega
    · rw [List.countP_cons_of_neg _ _ (by simpa using hak)]
      exact ih htail

theorem countP_key_dictSet (d : List (String × String)) (k v : String) (h : NodupKeys d) :
    (dictSet d k v).countP (fun p => p.1 == k) = 1 := by
  by_cases hany : d.any (fun p => p.1 == k) = true
  · rw [dictSet_of_any _ _ _ hany, List.countP_map]
    have hpt : ((fun p : String × String => p.1 == k) ∘ (fun p => if p.1 == k then (k, v) else p))
        = fun p : String × String => p.1 == k := by
      funext x
      by_cases hx : x.1 = k
      · simp [Function.comp, hx]
      · simp [Function.comp, hx]
    rw [hpt]
    have hle := countP_key_le_one d k h
    have hpos : 0 < d.countP (fun p => p.1 == k) :=
      List.countP_pos_iff.mpr (List.any_eq_true.mp hany)
    omega
  · rw [dictSet_of_not_any _ _ _ hany, List.countP_append]
    have h0 : d.countP (fun p => p.1 == k) = 0 :=
      List.countP_eq_zero.mpr fun a ha hc => hany (List.any_eq_true.mpr ⟨a, ha, hc⟩)
    rw [h0]
    simp [List.countP_cons]

theorem api_key_query_eq (k v : String) (s : Request) :
    api_key_auth_flow "query" k v s = { s with query := dictSet (pyDict s.query) k v } := by
  simp [api_key_auth_flow]

/-! ## Claims -/

/-- Claim C2 (counterexample): `is_url "http://"` is `true` although the
parsed URL has an empty host component, so `is_url` does not require a
non-empty host as the claim states. -/
theorem c2_counterexample :
    is_url "http://" = true ∧ urlNetloc "http://" = "" ∧ is_url_specWords "http://" = false :=
  ⟨rfl, rfl, rfl⟩

/-- Claim C2 (amended): `is_url` returns true exactly when the string parses
with scheme `http` or `https`; the host component is not examined. The three
spec examples behave as stated. -/
theorem c2_is_url_scheme_only :
    (∀ s : String, is_url s = true ↔ (urlScheme s = "http" ∨ urlScheme s = "https")) ∧
    is_url "https://api.example.com/spec.json" = true ∧
    is_url "/local/path.yaml" = false ∧
    is_url "ftp://host/x" = false := by
  refine ⟨fun s => ?_, rfl, rfl, rfl⟩
  simp [is_url]

/-- Claim C4: with strategy `none`/unset or any unrecognized strategy tag,
`get_auth` succeeds and returns the no-op policy (`None`), and the client
applies no mutation: the request passes through unchanged. -/
theorem c4_unrecognized_strategy_noop :
    ∀ (t : Option String) (cred : Option Cred),
      t ≠ some "basic" → t ≠ some "bearer" → t ≠ some "api_key" → t ≠ some "oauth2" →
      get_auth t cred = .ok none ∧
      ∀ (enc : String → String) (fetch : Option String) (st : OAuth2St) (r : Request),
        apply_auth enc fetch none st r = (r, st, 0) := by
  intro t cred h1 h2 h3 h4
  refine ⟨?_, fun enc fetch st r => rfl⟩
  simp [get_auth, h1, h2, h3, h4]

/-- Witness for C4: the unrecognized tag `digest` resolves to the no-op
policy, which leaves a concrete request unchanged. -/
theorem c4_witness :
    get_auth (some "digest") (some (.pstr "x")) = .ok none ∧
    apply_auth (fun s => s) none none ⟨none⟩ req0 = (req0, ⟨none⟩, 0) := by
  have h := c4_unrecognized_strategy_noop (some "digest") (some (.pstr "x"))
    (by decide) (by decide) (by decide) (by decide)
  exact ⟨h.1, h.2 (fun s => s) none ⟨none⟩ req0⟩

/-- Claim C5: `load_from_content` returns the YAML parser's result whenever
YAML succeeds (without consulting the JSON parser at all), and retries the
same text with the JSON parser exactly when YAML raises a parse error, so on
double failure the surfaced error is the JSON parser's. -/
theorem c5_yaml_then_json_fallback :
    ∀ {α : Type} (y j : String → Except String α) (s : String),
      (∀ v, y s = .ok v → load_from_content y j s = .ok v) ∧
      (∀ e, y s = .error e → load_from_content y j s = j s) ∧
      (∀ (j2 : String → Except String α) v, y s = .ok v →
        load_from_content y j s = load_from_content y j2 s) := by
  intro α y j s
  refine ⟨fun v hv => ?_, fun e he => ?_, fun j2 v hv => ?_⟩
  · simp [load_from_content, hv]
  · simp [load_from_content, he]
  · simp [load_from_content, hv]

/-- Witness for C5: with a succeeding YAML parser the YAML value is returned;
with both parsers failing, the JSON parser's error is the final failure. -/
theorem c5_witness :
    load_from_content (fun _ => (Except.ok 1 : Except String Nat))
      (fun _ => .error "jsonerr") "x" = .ok 1 ∧
    load_from_content (fun _ => (Except.error "yamlerr" : Except String Nat))
      (fun _ => .error "jsonerr") "x" = .error "jsonerr" := by
  have h1 := (c5_yaml_then_json_fallback (fun _ => (Except.ok 1 : Except String Nat))
    (fun _ => .error "jsonerr") "x").1 1 rfl
  have h2 := (c5_yaml_then_json_fallback (fun _ => (Except.error "yamlerr" : Except String Nat))
    (fun _ => .error "jsonerr") "x").2.1 "yamlerr" rfl
  exact ⟨h1, h2⟩

/-- Claim C9: an input whose URL scheme is not `http`/`https` takes the
local-file branch of `load_from_path_or_url`: if no file exists there the
call fails with `File not found: <input>`, and on no path through
`load_from_path_or_url` can such an input surface the `Invalid URL` error of
`download_from_url`. -/
theorem c9_non_http_scheme_is_local_path :
    ∀ {α : Type} (net : String → Except String String) (fe : String → Bool)
      (rd : String → String) (y j : String → Except String α) (s : String),
      urlScheme s ≠ "http" → urlScheme s ≠ "https" →
      (fe s = false →
        load_from_path_or_url net fe rd y j s
          = .error (.fileNotFound ("File not found: " ++ s))) ∧
      (∀ m, load_from_path_or_url net fe rd y j s ≠ .error (.invalidURL m)) := by
  intro α net fe rd y j s h1 h2
  have hurl : is_url s = false := by simp [is_url, h1, h2]
  constructor
  · intro hfe
    simp [load_from_path_or_url, hurl, hfe]
  · intro m
    by_cases hfe : fe s = true
    · simp only [load_from_path_or_url, hurl, Bool.false_eq_true, if_false, hfe, if_true]
      cases hload : load_from_content y j (rd s) <;> simp
    · simp only [load_from_path_or_url, hurl, Bool.false_eq_true, if_false]
      rw [if_neg hfe]
      simp

/-- Witness for C9: `ftp://host/x` with no such file fails with the
file-not-found error, not an invalid-URL error. -/
theorem c9_witness :
    load_from_path_or_url (fun _ => .error "net") (fun _ => false) (fun _ => "")
      (fun _ => (Except.ok 1 : Except String Nat)) (fun _ => .error "j") "ftp://host/x"
      = .error (.fileNotFound "File not found: ftp://host/x") := by
  have h := c9_non_http_scheme_is_local_path (fun _ => .error "net") (fun _ => false)
    (fun _ => "") (fun _ => (Except.ok 1 : Except String Nat)) (fun _ => .error "j")
    "ftp://host/x" (by decide) (by decide)
  exact h.1 rfl

/-- Claim C10: an `api_key` policy whose location is neither `header` nor
`query` applies as a silent no-op — the request is returned unchanged — and
resolution of such a bundle succeeds since it has three fields. -/
theorem c10_api_key_unknown_location_noop :
    ∀ (loc n v : String) (r : Request), loc ≠ "header" → loc ≠ "query" →
      api_key_auth_flow loc n v r = r ∧
      get_auth (some "api_key") (some (.ptup [loc, n, v]))
        = .ok (some (.apiKeyAuth loc n v)) := by
  intro loc n v r h1 h2
  refine ⟨?_, rfl⟩
  simp [api_key_auth_flow, h1, h2]

/-- Witness for C10: location `cookie` leaves a concrete request unchanged
and resolves without error. -/
theorem c10_witness :
    api_key_auth_flow "cookie" "k" "v" req0 = req0 ∧
    get_auth (some "api_key") (some (.ptup ["cookie", "k", "v"]))
      = .ok (some (.apiKeyAuth "cookie" "k" "v")) :=
  c10_api_key_unknown_location_noop "cookie" "k" "v" req0 (by decide) (by decide)

/-- Claim C1 (counterexample): the sync `auth_flow` — one of the code paths
by which an httpx transport invokes the OAuth2 policy — with no cached token
performs zero token exchanges and sets the header to the fixed string
`Bearer token_placeholder`, which is not a token obtained from the
exchange. -/
theorem c1_counterexample :
    (oauth2_sync_auth_flow ⟨none⟩ req0).2.2 = 0 ∧
    headerGet (oauth2_sync_auth_flow ⟨none⟩ req0).1.headers "Authorization"
      = some "Bearer token_placeholder" :=
  ⟨rfl, rfl⟩

/-- Claim C1 (amended): the async flow sets `Authorization: Bearer <token>`
and performs the token exchange first exactly when no (truthy) token is
cached; the sync flow never performs an exchange and signs with the cached
token, or with the literal `token_placeholder` when none is cached. -/
theorem c1_oauth2_apply :
    ∀ (fetch : Option String) (st : OAuth2St) (r : Request),
      (optTruthy st.token = false →
        (oauth2_async_auth_flow fetch st r).2.2 = 1 ∧
        headerGet (oauth2_async_auth_flow fetch st r).1.headers "Authorization"
          = some ("Bearer " ++ pyStrOpt fetch)) ∧
      (optTruthy st.token = true →
        (oauth2_async_auth_flow fetch st r).2.2 = 0 ∧
        headerGet (oauth2_async_auth_flow fetch st r).1.headers "Authorization"
          = some ("Bearer " ++ pyStrOpt st.token)) ∧
      ((oauth2_sync_auth_flow st r).2.2 = 0 ∧
        headerGet (oauth2_sync_auth_flow st r).1.headers "Authorization"
          = some ("Bearer " ++
              (if optTruthy st.token then pyStrOpt st.token else "token_placeholder"))) := by
  intro fetch st r
  constructor
  · intro hf
    have heq : oauth2_async_auth_flow fetch st r =
        ({ r with headers := headerSet r.headers "Authorization" ("Bearer " ++ pyStrOpt fetch) },
          { token := fetch }, 1) := by
      simp [oauth2_async_auth_flow, hf]
    rw [heq]
    exact ⟨rfl, headerGet_headerSet_self _ _ _ _ rfl⟩
  constructor
  · intro ht
    have heq : oauth2_async_auth_flow fetch st r =
        ({ r with headers :=
            headerSet r.headers "Authorization" ("Bearer " ++ pyStrOpt st.token) }, st, 0) := by
      simp [oauth2_async_auth_flow, ht]
    rw [heq]
    exact ⟨rfl, headerGet_headerSet_self _ _ _ _ rfl⟩
  · exact ⟨rfl, headerGet_headerSet_self _ _ _ _ rfl⟩

/-- Witness for C1 (amended): with an empty cache, the async flow performs
one exchange and signs with the fetched token. -/
theorem c1_witness :
    (oauth2_async_auth_flow (some "tok") ⟨none⟩ req0).2.2 = 1 ∧
    headerGet (oauth2_async_auth_flow (some "tok") ⟨none⟩ req0).1.headers "Authorization"
      = some "Bearer tok" := by
  have h := (c1_oauth2_apply (some "tok") ⟨none⟩ req0).1 rfl
  exact h

/-- Claim C3 (counterexample): a bearer credential bundle with two fields —
field count 2, not the claimed required arity of one token — does not fail:
`get_auth` accepts any truthy credential value for the bearer strategy. -/
theorem c3_counterexample :
    get_auth (some "bearer") (some (.ptup ["a", "b"]))
      = .ok (some (.bearerAuth (.ptup ["a", "b"]))) := rfl

/-- Claim C3 (amended): for basic (arity 2), api_key (arity 3) and oauth2
(arity 4) the resolver fails with exactly the §4.1 message when the field
count is wrong and succeeds when it matches; for bearer it fails with
"Bearer authentication requires a token" exactly when the credential value
is absent or empty, and accepts any non-empty value regardless of field
count. -/
theorem c3_resolver_arity :
    ∀ (cred : Option Cred),
      ((elems cred).length ≠ 2 →
        get_auth (some "basic") cred
          = .error "Basic authentication requires username and password") ∧
      ((elems cred).length = 2 → ∃ p, get_auth (some "basic") cred = .ok (some p)) ∧
      (credTruthy cred = false →
        get_auth (some "bearer") cred = .error "Bearer authentication requires a token") ∧
      (credTruthy cred = true →
        ∃ c, cred = some c ∧ get_auth (some "bearer") cred = .ok (some (.bearerAuth c))) ∧
      ((elems cred).length ≠ 3 →
        get_auth (some "api_key") cred
          = .error "API key authentication requires location, name, and value") ∧
      ((elems cred).length = 3 → ∃ p, get_auth (some "api_key") cred = .ok (some p)) ∧
      ((elems cred).length ≠ 4 →
        get_auth (some "oauth2") cred
          = .error "OAuth2 authentication requires token URL, client ID, client secret, and scope") ∧
      ((elems cred).length = 4 → ∃ p, get_auth (some "oauth2") cred = .ok (some p)) := by
  intro cred
  refine ⟨fun h => ?_, fun h => ?_, fun h => ?_, fun h => ?_,
    fun h => ?_, fun h => ?_, fun h => ?_, fun h => ?_⟩
  · show (match elems cred with
      | [u, p] => (Except.ok (some (AuthPolicy.basicAuth u p)) : Except String (Option AuthPolicy))
      | _ => .error "Basic authentication requires username and password") = _
    match helems : elems cred with
    | [] => rfl
    | [a] => rfl
    | [a, b] => exact absurd (by simp [helems]) h
    | a :: b :: c :: t => rfl
  · show ∃ p, (match elems cred with
      | [u, p] => (Except.ok (some (AuthPolicy.basicAuth u p)) : Except String (Option AuthPolicy))
      | _ => .error "Basic authentication requires username and password") = .ok (some p)
    match helems : elems cred with
    | [] => rw [helems] at h; simp at h
    | [a] => rw [helems] at h; simp at h
    | [a, b] => exact ⟨.basicAuth a b, rfl⟩
    | a :: b :: c :: t => rw [helems] at h; simp at h
  · cases cred with
    | none => rfl
    | some c => simp [get_auth, h]
  · cases cred with
    | none => simp [credTruthy] at h
    | some c => exact ⟨c, rfl, by simp [get_auth, h]⟩
  · show (match elems cred with
      | [l, n, v] => (Except.ok (some (AuthPolicy.apiKeyAuth l n v)) : Except String (Option AuthPolicy))
      | _ => .error "API key authentication requires location, name, and value") = _
    match helems : elems cred with
    | [] => rfl
    | [a] => rfl
    | [a, b] => rfl
    | [a, b, c] => exact absurd (by simp [helems]) h
    | a :: b :: c :: d :: t => rfl
  · show ∃ p, (match elems cred with
      | [l, n, v] => (Except.ok (some (AuthPolicy.apiKeyAuth l n v)) : Except String (Option AuthPolicy))
      | _ => .error "API key authentication requires location, name, and value") = .ok (some p)
    match helems : elems cred with
    | [] => rw [helems] at h; simp at h
    | [a] => rw [helems] at h; simp at h
    | [a, b] => rw [helems] at h; simp at h
    | [a, b, c] => exact ⟨.apiKeyAuth a b c, rfl⟩
    | a :: b :: c :: d :: t => rw [helems] at h; simp at h
  · show (match elems cred with
      | [tu, ci, cs, sc] =>
        (Except.ok (some (AuthPolicy.oauth2Auth tu ci cs sc)) : Except String (Option AuthPolicy))
      | _ => .error "OAuth2 authentication requires token URL, client ID, client secret, and scope") = _
    match helems : elems cred with
    | [] => rfl
    | [a] => rfl
    | [a, b] => rfl
    | [a, b, c] => rfl
    | [a, b, c, d] => exact absurd (by simp [helems]) h
    | a :: b :: c :: d :: e :: t => rfl
  · show ∃ p, (match elems cred with
      | [tu, ci, cs, sc] =>
        (Except.ok (some (AuthPolicy.oauth2Auth tu ci cs sc)) : Except String (Option AuthPolicy))
      | _ => .error "OAuth2 authentication requires token URL, client ID, client secret, and scope") = .ok (some p)
    match helems : elems cred with
    | [] => rw [helems] at h; simp at h
    | [a] => rw [helems] at h; simp at h
    | [a, b] => rw [helems] at h; simp at h
    | [a, b, c] => rw [helems] at h; simp at h
    | [a, b, c, d] => exact ⟨.oauth2Auth a b c d, rfl⟩
    | a :: b :: c :: d :: e :: t => rw [helems] at h; simp at h

/-- Witness for C3 (amended): concrete wrong-arity bundles fail with the
exact messages, and a one-field tuple is accepted by bearer. -/
theorem c3_witness :
    get_auth (some "basic") (some (.ptup ["u"]))
      = .error "Basic authentication requires username and password" ∧
    get_auth (some "bearer") none = .error "Bearer authentication requires a token" ∧
    get_auth (some "api_key") (some (.ptup ["header", "k"]))
      = .error "API key authentication requires location, name, and value" ∧
    get_auth (some "oauth2") (some (.ptup ["u", "c"]))
      = .error "OAuth2 authentication requires token URL, client ID, client secret, and scope" := by
  refine ⟨(c3_resolver_arity (some (.ptup ["u"]))).1 (by decide),
    (c3_resolver_arity none).2.2.1 rfl,
    (c3_resolver_arity (some (.ptup ["header", "k"]))).2.2.2.2.1 (by decide),
    (c3_resolver_arity (some (.ptup ["u", "c"]))).2.2.2.2.2.2.1 (by decide)⟩

/-- Claim C6: on a fresh OAuth2 policy instance whose exchange yields a
(non-empty) `access_token`, the first async apply performs exactly one token
exchange, caches the token, and signs with it; a second apply on the
resulting state performs zero exchanges and signs with the cached token. -/
theorem c6_token_exchange_once :
    ∀ (t : String) (r1 r2 : Request), t ≠ "" →
      (oauth2_async_auth_flow (some t) ⟨none⟩ r1).2.2 = 1 ∧
      (oauth2_async_auth_flow (some t) ⟨none⟩ r1).2.1 = ⟨some t⟩ ∧
      headerGet (oauth2_async_auth_flow (some t) ⟨none⟩ r1).1.headers "Authorization"
        = some ("Bearer " ++ t) ∧
      (oauth2_async_auth_flow (some t)
        (oauth2_async_auth_flow (some t) ⟨none⟩ r1).2.1 r2).2.2 = 0 ∧
      headerGet (oauth2_async_auth_flow (some t)
        (oauth2_async_auth_flow (some t) ⟨none⟩ r1).2.1 r2).1.headers "Authorization"
        = some ("Bearer " ++ t) := by
  intro t r1 r2 ht
  have heq1 : oauth2_async_auth_flow (some t) ⟨none⟩ r1 =
      ({ r1 with headers := headerSet r1.headers "Authorization" ("Bearer " ++ t) },
        ⟨some t⟩, 1) := by
    simp [oauth2_async_auth_flow, optTruthy, pyStrOpt]
  have htruthy : optTruthy (some t) = true := by simpa [optTruthy] using ht
  have heq2 : oauth2_async_auth_flow (some t) ⟨some t⟩ r2 =
      ({ r2 with headers := headerSet r2.headers "Authorization" ("Bearer " ++ t) },
        ⟨some t⟩, 0) := by
    simp [oauth2_async_auth_flow, htruthy, pyStrOpt]
  rw [heq1]
  refine ⟨rfl, rfl, headerGet_headerSet_self _ _ _ _ rfl, ?_, ?_⟩
  · rw [heq2]
  · rw [heq2]
    exact headerGet_headerSet_self _ _ _ _ rfl

/-- Witness for C6: a concrete fresh instance with token `tok`. -/
theorem c6_witness :
    (oauth2_async_auth_flow (some "tok") ⟨none⟩ req0).2.2 = 1 ∧
    (oauth2_async_auth_flow (some "tok") ⟨none⟩ req0).2.1 = ⟨some "tok"⟩ ∧
    headerGet (oauth2_async_auth_flow (some "tok") ⟨none⟩ req0).1.headers "Authorization"
      = some "Bearer tok" ∧
    (oauth2_async_auth_flow (some "tok")
      (oauth2_async_auth_flow (some "tok") ⟨none⟩ req0).2.1 req0).2.2 = 0 ∧
    headerGet (oauth2_async_auth_flow (some "tok")
      (oauth2_async_auth_flow (some "tok") ⟨none⟩ req0).2.1 req0).1.headers "Authorization"
      = some "Bearer tok" :=
  c6_token_exchange_once "tok" req0 req0 (by decide)

/-- Claim C7: the ApiKey(query) policy's apply is idempotent — a second
application yields the same request, and the resulting query carries the
configured parameter name exactly once, bound to the configured value. -/
theorem c7_api_key_query_idempotent :
    ∀ (k v : String) (r : Request),
      api_key_auth_flow "query" k v (api_key_auth_flow "query" k v r)
        = api_key_auth_flow "query" k v r ∧
      (api_key_auth_flow "query" k v (api_key_auth_flow "query" k v r)).query.countP
        (fun p => p.1 == k) = 1 ∧
      qget (api_key_auth_flow "query" k v (api_key_auth_flow "query" k v r)).query k
        = some v := by
  intro k v r
  have hnd : NodupKeys (dictSet (pyDict r.query) k v) :=
    dictSet_nodupKeys _ _ _ (pyDict_nodupKeys _)
  have key : api_key_auth_flow "query" k v (api_key_auth_flow "query" k v r)
      = api_key_auth_flow "query" k v r := by
    rw [api_key_query_eq k v r,
      api_key_query_eq k v ({ r with query := dictSet (pyDict r.query) k v })]
    show ({ r with query := dictSet (pyDict (dictSet (pyDict r.query) k v)) k v } : Request) = { r with query := dictSet (pyDict r.query) k v }
    rw [pyDict_eq_self _ hnd, dictSet_idem]
  refine ⟨key, ?_, ?_⟩
  · rw [key, api_key_query_eq]
    exact countP_key_dictSet _ _ _ (pyDict_nodupKeys _)
  · rw [key, api_key_query_eq]
    exact dictSet_qget_self _ _ _

/-- Claim C8 (counterexample): applying the ApiKey(query) policy to a
request whose query string holds a duplicated unrelated key (`?a=1&a=2`)
drops the second `a` entry — an unrelated query parameter is mutated,
because `dict(request.url.params)` collapses repeated keys. -/
theorem c8_counterexample :
    ("a", "2") ∈ reqDup.query ∧
    ("a", "2") ∉ (api_key_auth_flow "query" "k" "v" reqDup).query := by
  have h : (api_key_auth_flow "query" "k" "v" reqDup).query = [("a", "1"), ("k", "v")] := by
    rw [api_key_query_eq]
    show dictSet (pyDict [("a", "1"), ("a", "2")]) "k" "v" = _
    rw [pyDict_cons]
    have hf : ([("a", "2")] : List (String × String)).filter (fun q => q.1 != "a") = [] := rfl
    rw [hf, pyDict_nil]
    rfl
  constructor
  · decide
  · rw [h]
    decide

/-- Claim C8 (amended): every signing policy mutates only its specified
request field — the Authorization header for basic/bearer/oauth2, the
`key_name` header for api_key(header), the `key_name` query parameter for
api_key(query) — leaving method, path, body and all other headers
untouched; for api_key(query) every other query parameter is preserved as a
key-to-first-value binding (duplicated unrelated keys are collapsed to their
first value by the rewrite, as the counterexample shows). -/
theorem c8_signing_frame :
    (∀ (enc : String → String) (u pw : String) (r : Request),
      (basic_auth_flow enc u pw r).method = r.method ∧
      (basic_auth_flow enc u pw r).path = r.path ∧
      (basic_auth_flow enc u pw r).query = r.query ∧
      (basic_auth_flow enc u pw r).body = r.body ∧
      headerGet (basic_auth_flow enc u pw r).headers "Authorization"
        = some ("Basic " ++ enc (u ++ ":" ++ pw)) ∧
      ∀ n : String, lowerStr n ≠ "authorization" →
        headerGet (basic_auth_flow enc u pw r).headers n = headerGet r.headers n) ∧
    (∀ (t : Cred) (r : Request),
      (bearer_auth_flow t r).method = r.method ∧
      (bearer_auth_flow t r).path = r.path ∧
      (bearer_auth_flow t r).query = r.query ∧
      (bearer_auth_flow t r).body = r.body ∧
      headerGet (bearer_auth_flow t r).headers "Authorization"
        = some ("Bearer " ++ pyStrCred t) ∧
      ∀ n : String, lowerStr n ≠ "authorization" →
        headerGet (bearer_auth_flow t r).headers n = headerGet r.headers n) ∧
    (∀ (k v : String) (r : Request),
      (api_key_auth_flow "header" k v r).method = r.method ∧
      (api_key_auth_flow "header" k v r).path = r.path ∧
      (api_key_auth_flow "header" k v r).query = r.query ∧
      (api_key_auth_flow "header" k v r).body = r.body ∧
      headerGet (api_key_auth_flow "header" k v r).headers k = some v ∧
      ∀ n : String, lowerStr n ≠ lowerStr k →
        headerGet (api_key_auth_flow "header" k v r).headers n = headerGet r.headers n) ∧
    (∀ (k v : String) (r : Request),
      (api_key_auth_flow "query" k v r).method = r.method ∧
      (api_key_auth_flow "query" k v r).path = r.path ∧
      (api_key_auth_flow "query" k v r).headers = r.headers ∧
      (api_key_auth_flow "query" k v r).body = r.body ∧
      qget (api_key_auth_flow "query" k v r).query k = some v ∧
      ∀ m : String, m ≠ k →
        qget (api_key_auth_flow "query" k v r).query m = qget r.query m) ∧
    (∀ (fetch : Option String) (st : OAuth2St) (r : Request),
      (oauth2_async_auth_flow fetch st r).1.method = r.method ∧
      (oauth2_async_auth_flow fetch st r).1.path = r.path ∧
      (oauth2_async_auth_flow fetch st r).1.query = r.query ∧
      (oauth2_async_auth_flow fetch st r).1.body = r.body ∧
      headerGet (oauth2_async_auth_flow fetch st r).1.headers "Authorization"
        = some ("Bearer " ++ pyStrOpt (if optTruthy st.token then st.token else fetch)) ∧
      ∀ n : String, lowerStr n ≠ "authorization" →
        headerGet (oauth2_async_auth_flow fetch st r).1.headers n = headerGet r.headers n) ∧
    (∀ (st : OAuth2St) (r : Request),
      (oauth2_sync_auth_flow st r).1.method = r.method ∧
      (oauth2_sync_auth_flow st r).1.path = r.path ∧
      (oauth2_sync_auth_flow st r).1.query = r.query ∧
      (oauth2_sync_auth_flow st r).1.body = r.body ∧
      headerGet (oauth2_sync_auth_flow st r).1.headers "Authorization"
        = some ("Bearer " ++
            (if optTruthy st.token then pyStrOpt st.token else "token_placeholder")) ∧
      ∀ n : String, lowerStr n ≠ "authorization" →
        headerGet (oauth2_sync_auth_flow st r).1.headers n = headerGet r.headers n) := by
  have hauth : ∀ n : String, lowerStr n ≠ "authorization" →
      lowerStr n ≠ lowerStr "Authorization" := by
    intro n hn
    rw [show lowerStr "Authorization" = "authorization" from rfl]
    exact hn
  refine ⟨?_, ?_, ?_, ?_, ?_, ?_⟩
  · intro enc u pw r
    exact ⟨rfl, rfl, rfl, rfl, headerGet_headerSet_self _ _ _ _ rfl,
      fun n hn => headerGet_headerSet_other _ _ _ _ (hauth n hn)⟩
  · intro t r
    exact ⟨rfl, rfl, rfl, rfl, headerGet_headerSet_self _ _ _ _ rfl,
      fun n hn => headerGet_headerSet_other _ _ _ _ (hauth n hn)⟩
  · intro k v r
    exact ⟨rfl, rfl, rfl, rfl, headerGet_headerSet_self _ _ _ _ rfl,
      fun n hn => headerGet_headerSet_other _ _ _ _ hn⟩
  · intro k v r
    refine ⟨rfl, rfl, rfl, rfl, ?_, ?_⟩
    · rw [api_key_query_eq]
      exact dictSet_qget_self _ _ _
    · intro m hm
      rw [api_key_query_eq]
      show qget (dictSet (pyDict r.query) k v) m = qget r.query m
      rw [dictSet_qget_other _ _ _ _ hm, qget_pyDict]
  · intro fetch st r
    by_cases hst : optTruthy st.token = true
    · have heq : oauth2_async_auth_flow fetch st r =
          ({ r with headers :=
              headerSet r.headers "Authorization" ("Bearer " ++ pyStrOpt st.token) }, st, 0) := by
        simp [oauth2_async_auth_flow, hst]
      rw [heq, if_pos hst]
      exact ⟨rfl, rfl, rfl, rfl, headerGet_headerSet_self _ _ _ _ rfl,
        fun n hn => headerGet_headerSet_other _ _ _ _ (hauth n hn)⟩
    · have heq : oauth2_async_auth_flow fetch st r =
          ({ r with headers :=
              headerSet r.headers "Authorization" ("Bearer " ++ pyStrOpt fetch) },
            { token := fetch }, 1) := by
        simp [oauth2_async_auth_flow, hst]
      rw [heq, if_neg hst]
      exact ⟨rfl, rfl, rfl, rfl, headerGet_headerSet_self _ _ _ _ rfl,
        fun n hn => headerGet_headerSet_other _ _ _ _ (hauth n hn)⟩
  · intro st r
    exact ⟨rfl, rfl, rfl, rfl, headerGet_headerSet_self _ _ _ _ rfl,
      fun n hn => headerGet_headerSet_other _ _ _ _ (hauth n hn)⟩

/-- Witness for C8 (amended): the unrelated header `X-Other` survives a
basic-auth application, and the first binding of the unrelated query key `a`
survives an api_key(query) application. -/
theorem c8_witness :
    headerGet (basic_auth_flow (fun s => s) "u" "p" reqDup).headers "X-Other" = some "z" ∧
    qget (api_key_auth_flow "query" "k" "v" reqDup).query "a" = some "1" := by
  have hb := (c8_signing_frame.1 (fun s => s) "u" "p" reqDup).2.2.2.2.2 "X-Other" (by decide)
  have hq := (c8_signing_frame.2.2.2.1 "k" "v" reqDup).2.2.2.2.2 "a" (by decide)
  constructor
  · rw [hb]
    rfl
  · rw [hq]
    rfl

end McpGen
